import Mathlib

/-!
# Verification of the SurrealDB generic CRUD service layer

Shallow embedding of the data-access layer of the repository:
* `src/models/db/surreal.ts` (shipped alongside its test file
  `src/models/db/surreal.test.ts`): connection manager (`initSurrealDB`,
  `getSurrealDB`, `closeSurrealDB`) and the generic `SurrealService`
  (`buildWhereClause`, `formatRecord`, `add`, `findById`, `findBy`, `update`,
  `updateBy`, `upsert`, `delete`, `deleteMany`, `count`, `paginate`).
  The variant in `src/utils/surreal.ts` shares the clause-building,
  connection-manager and upsert/delete logic verbatim.
* `src/models/BaseModel.ts`: the Active-Record wrapper (`toJSON`, `update`).

JavaScript dynamic values are embedded as `JsonValue`; the external SurrealDB
client handle is embedded as a record of operations `Db`, each returning
`Except String _` (a thrown exception is `Except.error`).  Strings are Lean
`String`s; JS numbers are embedded as `Int` (every number handled by this
layer is integral; floating point is out of model).
-/

mutual

/-- A JavaScript/JSON value as manipulated by the service layer.
JS numbers are modelled as `Int`; `undefined` is conflated with `null`. -/
inductive JsonValue where
  | str (s : String)
  | num (n : Int)
  | bool (b : Bool)
  | null
  | arr (elems : JsonArray)
  | obj (fields : JsonFields)

/-- The elements of a JS array value. -/
inductive JsonArray where
  | nil
  | cons (head : JsonValue) (tail : JsonArray)

/-- The own enumerable properties of a JS object value (keys are unique in a
JS object; this model never constructs duplicates). -/
inductive JsonFields where
  | nil
  | cons (key : String) (val : JsonValue) (tail : JsonFields)

end

/-- Property lookup `fields[key]`, also modelling the JS `key in obj` test
(`isSome`). -/
def JsonFields.lookup : JsonFields → String → Option JsonValue
  | .nil, _ => none
  | .cons k v fs, key => if k = key then some v else fs.lookup key

/-- The elements of a JS array value, as a Lean list. -/
def JsonArray.toList : JsonArray → List JsonValue
  | .nil => []
  | .cons x xs => x :: xs.toList

/-- Rebuild a JS array value from a Lean list. -/
def JsonArray.ofList : List JsonValue → JsonArray
  | [] => .nil
  | x :: xs => .cons x (JsonArray.ofList xs)

/-- JS truthiness: `undefined`/`null`, `false`, `0` and `""` are falsy;
everything else (including every object and array) is truthy. -/
def jsFalsy : JsonValue → Bool
  | .null => true
  | .bool false => true
  | .num 0 => true
  | .str "" => true
  | _ => false

/-- JS `String.prototype.startsWith` for a one-or-more character prefix. -/
def jsStartsWith (s pre : String) : Bool :=
  pre.data.isPrefixOf s.data

/-- JS `String.prototype.endsWith`. -/
def jsEndsWith (s suf : String) : Bool :=
  suf.data.isSuffixOf s.data

/-- JS `String.prototype.includes` for a single-character needle, as used by
the `id.includes(':')` checks. -/
def jsIncludes (s : String) (c : Char) : Bool :=
  s.data.contains c

/-- Escaping of one character inside a JSON string literal (the part of
`JSON.stringify` string quoting this layer can encounter). -/
def jsonEscape (c : Char) : String :=
  if c = '"' then "\\\""
  else if c = '\\' then "\\\\"
  else if c = '\n' then "\\n"
  else if c = '\t' then "\\t"
  else if c = '\r' then "\\r"
  else String.singleton c

/-- `JSON.stringify` applied to a string: quote and escape. -/
def jsonQuote (s : String) : String :=
  "\"" ++ String.join (s.data.map jsonEscape) ++ "\""

mutual

/-- `JSON.stringify` as used by `buildWhereClause` / `update` / `updateBy`:
strings are quoted and escaped, numbers/booleans/null print bare, arrays and
objects print recursively. -/
def jsonStringify : JsonValue → String
  | .str s => jsonQuote s
  | .num n => toString n
  | .bool true => "true"
  | .bool false => "false"
  | .null => "null"
  | .arr xs => "[" ++ jsonStringifyArray xs ++ "]"
  | .obj fs => "\x7b" ++ jsonStringifyFields fs ++ "\x7d"

/-- Comma-joined rendering of array elements for `jsonStringify`. -/
def jsonStringifyArray : JsonArray → String
  | .nil => ""
  | .cons x .nil => jsonStringify x
  | .cons x (.cons y xs) => jsonStringify x ++ "," ++ jsonStringifyArray (.cons y xs)

/-- Comma-joined rendering of object fields for `jsonStringify`. -/
def jsonStringifyFields : JsonFields → String
  | .nil => ""
  | .cons k v .nil => jsonQuote k ++ ":" ++ jsonStringify v
  | .cons k v (.cons k2 v2 fs) =>
    jsonQuote k ++ ":" ++ jsonStringify v ++ "," ++
      jsonStringifyFields (.cons k2 v2 fs)

end

mutual

/-- The JS `String(v)` coercion (also performed by template literals):
strings pass through unquoted, numbers/booleans/null print bare, arrays join
their elements with commas, plain objects print as `[object Object]`. -/
def jsToString : JsonValue → String
  | .str s => s
  | .num n => toString n
  | .bool true => "true"
  | .bool false => "false"
  | .null => "null"
  | .arr xs => jsArrayToString xs
  | .obj _ => "[object Object]"

/-- `Array.prototype.toString`: elements joined by `","`, a `null`
(or `undefined`) element rendering as the empty string. -/
def jsArrayToString : JsonArray → String
  | .nil => ""
  | .cons .null .nil => ""
  | .cons x .nil => jsToString x
  | .cons .null (.cons y xs) => "," ++ jsArrayToString (.cons y xs)
  | .cons x (.cons y xs) => jsToString x ++ "," ++ jsArrayToString (.cons y xs)

end

/-- `Array.isArray(result) ? result : [result]` — the result normalisation
`add` applies to the client's create response. -/
def jsToArray : JsonValue → List JsonValue
  | .arr xs => xs.toList
  | v => [v]

/-- Models the JS expression `(v as unknown[]) || []` applied to the `result`
field of a query response: an array passes through, a falsy value (`null`)
yields `[]`.  Non-array truthy values do not occur in the client's typed
responses, so they are also sent to `[]`. -/
def jsArrOrEmpty : JsonValue → List JsonValue
  | .arr xs => xs.toList
  | _ => []

/-- The query-condition operators of `src/models/db/surreal.ts`
(`type QueryOperator = '=' | '!=' | '>' | '>=' | '<' | '<=' | 'LIKE' | 'IN' | 'NOT IN'`). -/
inductive QueryOperator where
  | eq | ne | gt | ge | lt | le | like | inOp | notIn
  deriving DecidableEq, Repr

/-- The source text of each operator, as spliced into a clause. -/
def QueryOperator.render : QueryOperator → String
  | .eq => "="
  | .ne => "!="
  | .gt => ">"
  | .ge => ">="
  | .lt => "<"
  | .le => "<="
  | .like => "LIKE"
  | .inOp => "IN"
  | .notIn => "NOT IN"

/-- One explicit condition triple `{field, operator?, value}`
(`interface QueryCondition`); a missing operator defaults to `=`. -/
structure QueryCondition where
  field : String
  operator : Option QueryOperator
  value : JsonValue

/-- The `Partial<T> | QueryCondition[]` union accepted by `buildWhereClause`:
either a field→value map (implicit `=` joined by AND), or an ordered list of
explicit triples. -/
inductive Conditions where
  | fields (entries : JsonFields)
  | list (conds : List QueryCondition)

/-- Rendering of a single `QueryCondition` triple — the body of the `map` in
`buildWhereClause` (surreal.ts lines 283–316), including the four-way `LIKE`
dispatch on leading/trailing `%` wildcard markers. -/
def buildCondition (cond : QueryCondition) : String :=
  let field := cond.field
  let operator := cond.operator.getD .eq
  if operator = .inOp ∨ operator = .notIn then
    let values := match cond.value with
      | .arr vs => vs.toList
      | v => [v]
    let value := "[" ++ String.intercalate ", " (values.map jsonStringify) ++ "]"
    field ++ " " ++ operator.render ++ " " ++ value
  else if operator = .like then
    let pattern := jsToString cond.value
    if jsStartsWith pattern "%" && jsEndsWith pattern "%" then
      let searchStr := (pattern.drop 1).dropRight 1
      "string::contains(" ++ field ++ ", " ++ jsonStringify (.str searchStr) ++ ")"
    else if jsStartsWith pattern "%" then
      let searchStr := pattern.drop 1
      "string::ends_with(" ++ field ++ ", " ++ jsonStringify (.str searchStr) ++ ")"
    else if jsEndsWith pattern "%" then
      let searchStr := pattern.dropRight 1
      "string::starts_with(" ++ field ++ ", " ++ jsonStringify (.str searchStr) ++ ")"
    else
      field ++ " = " ++ jsonStringify cond.value
  else
    field ++ " " ++ operator.render ++ " " ++ jsonStringify cond.value

/-- Pretty rendering of one field-map entry: `key = JSON.stringify(value)`. -/
def buildFieldEntry (fields : JsonFields) : List String :=
  match fields with
  | .nil => []
  | .cons k v fs => (k ++ " = " ++ jsonStringify v) :: buildFieldEntry fs

/-- `SurrealService.buildWhereClause` (surreal.ts lines 280–326): an array of
triples renders each triple and joins with `" AND "`; a plain object renders
`key = JSON.stringify(value)` per entry (via `Object.entries`), joined with
`" AND "`. -/
def buildWhereClause : Conditions → String
  | .list conds => String.intercalate " AND " (conds.map buildCondition)
  | .fields entries => String.intercalate " AND " (buildFieldEntry entries)

example :
    buildCondition ⟨"email", some .like, .str "%@x.com"⟩ =
      "string::ends_with(email, \"@x.com\")" := rfl

example :
    buildCondition ⟨"name", some .like, .str "john%"⟩ =
      "string::starts_with(name, \"john\")" := rfl

example :
    buildCondition ⟨"name", some .like, .str "%an%"⟩ =
      "string::contains(name, \"an\")" := rfl

example :
    buildCondition ⟨"name", some .like, .str "exact"⟩ = "name = \"exact\"" := rfl

example :
    buildCondition ⟨"age", some .inOp, .arr (.cons (.num 1) (.cons (.num 2) .nil))⟩ =
      "age IN [1, 2]" := rfl

example :
    buildWhereClause (.fields (.cons "age" (.num 25) .nil)) = "age = 25" := rfl

example :
    buildWhereClause (.list [⟨"age", some .gt, .num 20⟩, ⟨"age", some .lt, .num 30⟩]) =
      "age > 20 AND age < 30" := rfl

/-- JS in-place assignment `r.id = v` on an object that has an `id` property:
replace the value stored at key `"id"`, leaving its position intact. -/
def setId : JsonFields → JsonValue → JsonFields
  | .nil, _ => .nil
  | .cons k w fs, v =>
    if k = "id" then .cons k v (setId fs v) else .cons k w (setId fs v)

/-- `SurrealService.formatRecord` (surreal.ts lines 331–342): if the record is
an object with an `id` property, replace that property by a string — for a
composite record id `{tb, id}` the string `` `${tb}:${id}` ``, otherwise
`String(id)`.  Records without an `id` property and non-object values pass
through unchanged. -/
def formatRecord (record : JsonValue) : JsonValue :=
  match record with
  | .obj fields =>
    match fields.lookup "id" with
    | some idv =>
      match idv with
      | .obj idFields =>
        match idFields.lookup "id", idFields.lookup "tb" with
        | some innerId, some tbv =>
          .obj (setId fields (.str (jsToString tbv ++ ":" ++ jsToString innerId)))
        | _, _ => .obj (setId fields (.str (jsToString idv)))
      | _ => .obj (setId fields (.str (jsToString idv)))
    | none => record
  | _ => record

/-- The external SurrealDB client handle, reduced to the two primitives this
layer invokes: `db.create(table, data)` and `db.query(statement)`.  A thrown
exception is `Except.error`; `db.query`'s success value is the per-statement
result array. -/
structure Db where
  create : String → JsonValue → Except String JsonValue
  query : String → Except String (List JsonValue)

/-- The id normalisation repeated in `findById` / `update` / `delete`:
`idStr.includes(':') ? idStr : table + ':' + idStr`. -/
def normalizeRecordId (table id : String) : String :=
  if jsIncludes id ':' then id else table ++ ":" ++ id

namespace SurrealService

/-- `records[0] ? this.formatRecord(records[0]) : null` — take the first
record of a result, formatted, or `null` when there is none (or it is
falsy). -/
def selectFirst (records : List JsonValue) : Option JsonValue :=
  match records.head? with
  | some r => if jsFalsy r then none else some (formatRecord r)
  | none => none

/-- The body of `findById` after id normalisation (surreal.ts lines 392–409):
run `SELECT * FROM <recordId>`, probe the first statement result (an object
with a `result` field, or directly an array), and return the first record
formatted; any thrown error yields `null`. -/
def selectFrom (db : Db) (recordId : String) : Option JsonValue :=
  match db.query ("SELECT * FROM " ++ recordId) with
  | .error _ => none
  | .ok result =>
    match result.head? with
    | some (.obj fs) =>
      match fs.lookup "result" with
      | some rv => selectFirst (jsArrOrEmpty rv)
      | none => none
    | some (.arr xs) => selectFirst xs.toList
    | _ => none

/-- `SurrealService.findById` (surreal.ts lines 381–411): an empty id
immediately yields `null` (logged); otherwise the id is normalised to
`table:id` unless it already contains `':'`, and the record is selected. -/
def findById (db : Db) (table id : String) : Option JsonValue :=
  if id = "" then none
  else selectFrom db (normalizeRecordId table id)

/-- `SurrealService.add` (surreal.ts lines 347–363): `db.create`, normalise
the response to an array, throw `PersistenceError` when it has no (truthy)
first record, else return the first record formatted. -/
def add (db : Db) (table : String) (data : JsonValue) : Except String JsonValue :=
  match db.create table data with
  | .error e => .error e
  | .ok result =>
    match (jsToArray result).head? with
    | none => .error "创建记录失败：未返回结果"
    | some r =>
      if jsFalsy r then .error "创建记录失败：未返回结果"
      else .ok (formatRecord r)

/-- `SurrealService.findBy` (surreal.ts lines 429–459): run a filtered
`SELECT`, probe the first statement result: a `result` field yields its
records formatted; an in-band `status: 'ERR'` response is logged and yields
`[]`; an array yields its elements formatted; anything else falls through to
mapping `formatRecord` over the raw statement results.  A thrown error is
re-thrown. -/
def findBy (db : Db) (table : String) (conditions : Conditions) :
    Except String (List JsonValue) :=
  match db.query ("SELECT * FROM " ++ table ++ " WHERE " ++ buildWhereClause conditions) with
  | .error e => .error e
  | .ok result =>
    match result.head? with
    | some (.obj fs) =>
      match fs.lookup "result" with
      | some rv => .ok ((jsArrOrEmpty rv).map formatRecord)
      | none =>
        match fs.lookup "status" with
        | some (.str "ERR") => .ok []
        | _ => .ok (result.map formatRecord)
    | some (.arr xs) => .ok (xs.toList.map formatRecord)
    | _ => .ok (result.map formatRecord)

/-- The `SET` fragment `Object.entries(data).map(([k, v]) => k + ' = ' +
JSON.stringify(v)).join(', ')` shared by `update` and `updateBy`. -/
def updateData (data : JsonFields) : String :=
  String.intercalate ", " (buildFieldEntry data)

/-- `SurrealService.update` (surreal.ts lines 493–532): reject an empty id,
normalise it, run `UPDATE <recordId> SET <data> RETURN AFTER`, and return the
first post-update record formatted; an empty result (or an unrecognised
response shape) throws NotFound. -/
def update (db : Db) (table id : String) (data : JsonFields) :
    Except String JsonValue :=
  if id = "" then .error ("无效的 ID: " ++ id)
  else
    let recordId := normalizeRecordId table id
    match db.query ("UPDATE " ++ recordId ++ " SET " ++ updateData data ++ " RETURN AFTER") with
    | .error e => .error e
    | .ok result =>
      match result.head? with
      | some (.obj fs) =>
        match fs.lookup "result" with
        | some rv =>
          match jsArrOrEmpty rv with
          | [] => .error ("更新记录失败：记录 " ++ recordId ++ " 不存在")
          | r :: _ => .ok (formatRecord r)
        | none => .error ("更新记录失败：记录 " ++ recordId ++ " 不存在")
      | some (.arr xs) =>
        match xs.toList with
        | [] => .error ("更新记录失败：记录 " ++ recordId ++ " 不存在")
        | r :: _ => .ok (formatRecord r)
      | _ => .error ("更新记录失败：记录 " ++ recordId ++ " 不存在")

/-- `SurrealService.updateBy` (surreal.ts lines 550–573): bulk
`UPDATE <table> SET <data> WHERE <clause> RETURN AFTER`, returning all
post-update records formatted (possibly `[]`). -/
def updateBy (db : Db) (table : String) (conditions : Conditions) (data : JsonFields) :
    Except String (List JsonValue) :=
  match db.query ("UPDATE " ++ table ++ " SET " ++ updateData data ++ " WHERE " ++
      buildWhereClause conditions ++ " RETURN AFTER") with
  | .error e => .error e
  | .ok result =>
    match result.head? with
    | some (.obj fs) =>
      match fs.lookup "result" with
      | some rv => .ok ((jsArrOrEmpty rv).map formatRecord)
      | none => .ok []
    | some (.arr xs) => .ok (xs.toList.map formatRecord)
    | _ => .ok []

/-- `SurrealService.upsert` (surreal.ts lines 578–590): update when
`findById(id)` finds a record, else create from `{...data}` alone (the id
argument is not part of the created payload). -/
def upsert (db : Db) (table id : String) (data : JsonFields) :
    Except String JsonValue :=
  match findById db table id with
  | some _ => update db table id data
  | none => add db table (.obj data)

/-- `SurrealService.delete` (surreal.ts lines 595–614): an empty id yields
`false` (logged); otherwise run `DELETE <recordId>` and report `true`, any
thrown error being swallowed into `false`.  The function can only return a
boolean — it never propagates an exception. -/
def delete (db : Db) (table id : String) : Bool :=
  if id = "" then false
  else
    match db.query ("DELETE " ++ normalizeRecordId table id) with
    | .ok _ => true
    | .error _ => false

/-- `SurrealService.deleteMany` (surreal.ts lines 633–641):
`await Promise.all(ids.map((id) => this.delete(id))); return true`.  Because
`delete` resolves to a boolean and never rejects, the `catch` branch
returning `false` is unreachable. -/
def deleteMany (db : Db) (table : String) (ids : List String) : Bool :=
  let _results := ids.map fun id => delete db table id
  true

end SurrealService

/-- `Math.ceil(t / p)` on integer operands: exact for every `p ≠ 0`
(`⌈t/p⌉ = -⌊-t/p⌋`, and `Int.fdiv` is floor division).  For `p = 0` the JS
expression is `Infinity`/`NaN`, which has no integer model; this function
returns `0` there and the pagination theorems assume `0 < p`. -/
def mathCeilDiv (t p : Int) : Int :=
  -((-t).fdiv p)

/-- The sort specification `{field, direction?}` accepted by `paginate`;
a missing direction defaults to `ASC`. -/
structure OrderBy where
  field : String
  direction : Option String

namespace SurrealService

/-- `SurrealService.count` (surreal.ts lines 701–734): `SELECT count() FROM
<table> [WHERE <clause>] GROUP ALL`, then probe the first statement result
for a `result` field (or a direct array) and read `data[0].count || 0`;
anything unrecognised counts as `0`.  A thrown error is re-thrown. -/
def count (db : Db) (table : String) (conditions : Option Conditions) :
    Except String Int :=
  let q := match conditions with
    | some c => "SELECT count() FROM " ++ table ++ " WHERE " ++ buildWhereClause c ++ " GROUP ALL"
    | none => "SELECT count() FROM " ++ table ++ " GROUP ALL"
  match db.query q with
  | .error e => .error e
  | .ok result =>
    let data : List JsonValue := match result.head? with
      | some (.obj fs) =>
        match fs.lookup "result" with
        | some rv => jsArrOrEmpty rv
        | none => []
      | some (.arr xs) => xs.toList
      | _ => []
    match data.head? with
    | some (.obj cfs) =>
      match cfs.lookup "count" with
      | some (.num n) => .ok n
      | _ => .ok 0
    | _ => .ok 0

/-- The data query `paginate` issues (surreal.ts lines 746–759):
`SELECT * FROM <table>`, then the optional `WHERE` clause, then the optional
`ORDER BY <field> <direction|ASC>`, then
`LIMIT <pageSize> START <(page-1)*pageSize>`. -/
def paginateQuery (table : String) (page pageSize : Int)
    (conditions : Option Conditions) (orderBy : Option OrderBy) : String :=
  let offset := (page - 1) * pageSize
  let query := "SELECT * FROM " ++ table
  let query := match conditions with
    | some c => query ++ " WHERE " ++ buildWhereClause c
    | none => query
  let query := match orderBy with
    | some o => query ++ " ORDER BY " ++ o.field ++ " " ++ o.direction.getD "ASC"
    | none => query
  query ++ " LIMIT " ++ toString pageSize ++ " START " ++ toString offset

/-- The result record of `paginate`. -/
structure PaginateResult where
  data : List JsonValue
  total : Int
  page : Int
  pageSize : Int
  totalPages : Int

/-- The data-row extraction of `paginate` (surreal.ts lines 766–776): an
object first statement result yields its `result` records (or `[]`), an
array first result is taken directly, anything else falls back to the raw
statement-result array. -/
def paginateData (dataResult : List JsonValue) : List JsonValue :=
  match dataResult.head? with
  | some (.obj fs) =>
    match fs.lookup "result" with
    | some rv => jsArrOrEmpty rv
    | none => []
  | some (.arr xs) => xs.toList
  | some _ => dataResult
  | none => dataResult

/-- `SurrealService.paginate` (surreal.ts lines 739–791): build the data
query, run it and `count(conditions)` via `Promise.all` (both must succeed;
a failure of either is re-thrown), extract the data rows, and assemble
`{data, total, page, pageSize, totalPages: Math.ceil(total / pageSize)}`
with `page`/`pageSize` echoed unvalidated. -/
def paginate (db : Db) (table : String) (page pageSize : Int)
    (conditions : Option Conditions) (orderBy : Option OrderBy) :
    Except String PaginateResult :=
  match db.query (paginateQuery table page pageSize conditions orderBy),
      count db table conditions with
  | .error e, _ => .error e
  | .ok _, .error e => .error e
  | .ok dataResult, .ok countResult =>
    .ok { data := paginateData dataResult
          total := countResult
          page := page
          pageSize := pageSize
          totalPages := mathCeilDiv countResult pageSize }

end SurrealService

/-- The process-wide client handle owned by the connection manager (the
`Surreal` class of the client library; renamed here because Mathlib already
has a `Surreal`).  Its internals are irrelevant to this layer; a token
stands for a live connection. -/
structure SurrealHandle where
  token : Nat
  deriving DecidableEq

/-- `initSurrealDB` (surreal.ts lines 204–217) over an explicit
`dbInstance : Option SurrealHandle` state.  `connect` stands for the outcome of
`getDb(DEFAULT_CONFIG)`.  If an instance exists it is returned as is (the
`connect` argument is not consulted); otherwise a successful connect is
stored and returned, and a failed connect leaves the state reset to `none`
and re-throws. -/
def initSurrealDB (connect : Except String SurrealHandle) :
    Option SurrealHandle → Option SurrealHandle × Except String SurrealHandle
  | some db => (some db, .ok db)
  | none =>
    match connect with
    | .ok db => (some db, .ok db)
    | .error e => (none, .error e)

/-- `getSurrealDB` (surreal.ts lines 229–234): throw NotInitialized when no
instance is stored, else return it. -/
def getSurrealDB : Option SurrealHandle → Except String SurrealHandle
  | none => .error "SurrealDB 未初始化，请先调用 initSurrealDB()"
  | some db => .ok db

/-- `closeSurrealDB` (surreal.ts lines 239–244): close the handle if any and
reset the state to `none`; a no-op (still `none`) when already closed. -/
def closeSurrealDB : Option SurrealHandle → Option SurrealHandle
  | some _ => none
  | none => none

/-- One own enumerable property of an Active-Record instance: either a data
value or a function-valued property. -/
inductive JsField where
  | val (v : JsonValue)
  | fn

/-- An Active-Record instance (`BaseModel` subclass object), given by its own
enumerable properties in definition order — among them possibly `id`,
data fields, the lazily created `_service`, and function-valued fields. -/
structure ModelInstance where
  fields : List (String × JsField)

namespace BaseModel

/-- The instance's `this.id`, filtered by the `if (!this.id)` truthiness
check of `update`: an absent or falsy `id` property counts as unset. -/
def getId (m : ModelInstance) : Option JsonValue :=
  match m.fields.lookup "id" with
  | some (.val v) => if jsFalsy v then none else some v
  | _ => none

/-- The filter of `BaseModel.toJSON` over the property list: keep each own
enumerable property whose key is `id` or does not start with `_`, and whose
value is not a function. -/
def toJSONFields : List (String × JsField) → JsonFields
  | [] => .nil
  | (k, f) :: rest =>
    match f with
    | .fn => toJSONFields rest
    | .val v =>
      if k = "id" ∨ jsStartsWith k "_" = false then .cons k v (toJSONFields rest)
      else toJSONFields rest

/-- `BaseModel.toJSON` (BaseModel.ts lines 68–79): serialize the instance's
public data properties (`Object.keys(this)` filtered by
`(key === 'id' || !key.startsWith('_')) && typeof self[key] !== 'function'`). -/
def toJSON (m : ModelInstance) : JsonFields :=
  toJSONFields m.fields

/-- JS `Object.assign(this, result)`: copy each field of the returned record
onto the instance (overwriting in place, appending new keys); a non-object
result copies nothing. -/
def objectAssign (m : ModelInstance) (result : JsonValue) : ModelInstance :=
  match result with
  | .obj rs => ⟨assignFields m.fields rs⟩
  | _ => m
where
  /-- Fold the record's fields into the property list one by one. -/
  assignFields (fs : List (String × JsField)) : JsonFields → List (String × JsField)
    | .nil => fs
    | .cons k v rest => assignFields (setProp fs k (.val v)) rest
  /-- Set one property, overwriting an existing key in place or appending. -/
  setProp (fs : List (String × JsField)) (k : String) (v : JsField) :
      List (String × JsField) :=
    if (fs.lookup k).isSome then
      fs.map fun kv => if kv.1 = k then (k, v) else kv
    else fs ++ [(k, v)]

/-- `BaseModel.update` (BaseModel.ts lines 47–55) against an abstract
service-update function `svc` (standing for `this.service.update`): throw
InvalidState when the instance has no identifier — before any service call —
else serialize via `toJSON`, invoke the service with the instance's id, and
merge the returned record back into the instance. -/
def update (svc : String → JsonFields → Except String JsonValue)
    (m : ModelInstance) : Except String ModelInstance :=
  match getId m with
  | none => .error "无法更新没有 ID 的记录"
  | some idv =>
    match svc (jsToString idv) (toJSON m) with
    | .error e => .error e
    | .ok result => .ok (objectAssign m result)

end BaseModel

/-- A record returned by the service has a string-valued id: every `id`
property it may carry holds a `.str` value. -/
def recordIdIsString (r : JsonValue) : Prop :=
  ∀ fields v, r = JsonValue.obj fields → fields.lookup "id" = some v →
    ∃ s, v = JsonValue.str s

/-! ### Concrete stores used to instantiate the theorems

Each `Db` below fixes the responses of the external SurrealDB client for the
few statements a scenario issues; every other statement raises. -/

/-- A stored record `{id: "user:alice", name: "Alice", age: 25}`. -/
def recAlice : JsonValue :=
  .obj (.cons "id" (.str "user:alice")
    (.cons "name" (.str "Alice") (.cons "age" (.num 25) .nil)))

/-- `recAlice` after an update renaming her to `"Ann"`. -/
def recAnn : JsonValue :=
  .obj (.cons "id" (.str "user:alice")
    (.cons "name" (.str "Ann") (.cons "age" (.num 25) .nil)))

/-- A freshly created record whose id is still the client's composite
record-id object `{tb: "user", id: "carol"}`. -/
def recCarol : JsonValue :=
  .obj (.cons "id" (.obj (.cons "tb" (.str "user") (.cons "id" (.str "carol") .nil)))
    (.cons "name" (.str "Carol") .nil))

/-- A query response carrying `records` inside a `result` field. -/
def resultResponse (records : List JsonValue) : List JsonValue :=
  [.obj (.cons "result" (.arr (.ofList records)) .nil)]

/-- Store for the pagination scenario: 5 records total, page 1 of size 2. -/
def pagingDb : Db :=
  { create := fun _ _ => .error "unused"
    query := fun q =>
      if q = "SELECT count() FROM test_user GROUP ALL" then
        .ok (resultResponse [.obj (.cons "count" (.num 5) .nil)])
      else if q = "SELECT * FROM test_user LIMIT 2 START 0" then
        .ok (resultResponse [recAlice, recAnn])
      else .error "unexpected query" }

/-- Store for the findById/upsert scenarios: `user:alice` exists, `user:gone`
and `user:gone2` do not, creation succeeds with a fresh record, and any other
statement (a malformed id, for instance) raises. -/
def lookupDb : Db :=
  { create := fun _ _ => .ok (.arr (.cons recCarol .nil))
    query := fun q =>
      if q = "SELECT * FROM user:alice" then .ok (resultResponse [recAlice])
      else if q = "SELECT * FROM user:gone" then .ok (resultResponse [])
      else if q = "SELECT * FROM user:gone2" then .ok (resultResponse [])
      else .error "connection failure" }

/-- Store holding `test_user:a`, before it is deleted.  Its `DELETE` returns
the deleted record. -/
def dbWithRecord : Db :=
  { create := fun _ _ => .error "unused"
    query := fun q =>
      if q = "SELECT * FROM test_user:a" then
        .ok (resultResponse [.obj (.cons "id" (.str "test_user:a") .nil)])
      else if q = "DELETE test_user:a" then
        .ok (resultResponse [.obj (.cons "id" (.str "test_user:a") .nil)])
      else .error "unexpected query" }

/-- The same store after `test_user:a` has been deleted: selecting it finds
nothing, and — per SurrealDB's documented semantics — deleting the
now-missing record is *not* an error: the statement succeeds with an empty
result. -/
def dbAfterDelete : Db :=
  { create := fun _ _ => .error "unused"
    query := fun q =>
      if q = "SELECT * FROM test_user:a" then .ok (resultResponse [])
      else if q = "DELETE test_user:a" then .ok (resultResponse [])
      else .error "unexpected query" }

/-- Store in which the filtered read `age = 25` matches nothing. -/
def noMatchDb : Db :=
  { create := fun _ _ => .error "unused"
    query := fun q =>
      if q = "SELECT * FROM user WHERE age = 25" then .ok (resultResponse [])
      else .error "unexpected query" }

/-- Store in which the filtered read `age = 25` is answered by an in-band
error response `{status: 'ERR', detail: ...}` instead of records. -/
def inbandErrDb : Db :=
  { create := fun _ _ => .error "unused"
    query := fun q =>
      if q = "SELECT * FROM user WHERE age = 25" then
        .ok [.obj (.cons "status" (.str "ERR")
          (.cons "detail" (.str "parse error") .nil))]
      else .error "unexpected query" }

/-- Store exercising every read/write path that formats returned records:
creation yields `recCarol` (composite id), selects and filtered reads yield
`recAlice`, updates yield `recAnn`. -/
def formatDb : Db :=
  { create := fun _ _ => .ok (.arr (.cons recCarol .nil))
    query := fun q =>
      if q = "SELECT * FROM user:alice" then .ok (resultResponse [recAlice])
      else if q = "SELECT * FROM user WHERE age = 25" then
        .ok (resultResponse [recAlice])
      else if q = "UPDATE user:alice SET name = \"Ann\" RETURN AFTER" then
        .ok (resultResponse [recAnn])
      else if q = "UPDATE user SET name = \"Ann\" WHERE age = 25 RETURN AFTER" then
        .ok (resultResponse [recAnn])
      else .error "unexpected query" }

/-- An Active-Record instance with an id, a public field, a lazily created
`_service` property and a function-valued property. -/
def instBob : ModelInstance :=
  ⟨[("id", .val (.str "user:bob")), ("name", .val (.str "Bob")),
    ("_service", .val .null), ("refresh", .fn)]⟩

/-- An Active-Record instance whose identifier was never assigned. -/
def instNoId : ModelInstance :=
  ⟨[("name", .val (.str "Bob"))]⟩

/-- A service-update stub answering with a fixed post-update record. -/
def svcStub : String → JsonFields → Except String JsonValue :=
  fun id _ => .ok (.obj (.cons "id" (.str id) (.cons "name" (.str "Bob") .nil)))

/-! ### Helper lemmas -/

/-- Setting the `id` property of an object that has one makes it the value
found by a subsequent lookup. -/
theorem JsonFields.lookup_setId :
    ∀ (fs : JsonFields) (v w : JsonValue),
      fs.lookup "id" = some w → (setId fs v).lookup "id" = some v
  | .nil, _, _, h => by simp [JsonFields.lookup] at h
  | .cons k x fs, v, w, h => by
    by_cases hk : k = "id"
    · subst hk
      simp [setId, JsonFields.lookup]
    · simp only [JsonFields.lookup, if_neg hk] at h
      simp only [setId, if_neg hk, JsonFields.lookup]
      exact JsonFields.lookup_setId fs v w h

/-- Every record that went through `formatRecord` has a string-valued id. -/
theorem recordIdIsString_formatRecord (r : JsonValue) :
    recordIdIsString (formatRecord r) := by
  intro fields v hr hl
  cases r with
  | obj fs =>
    simp only [formatRecord] at hr
    cases hid : fs.lookup "id" with
    | none =>
      rw [hid] at hr
      dsimp only at hr
      cases hr
      rw [hid] at hl
      cases hl
    | some idv =>
      rw [hid] at hr
      dsimp only at hr
      cases idv with
      | obj idFields =>
        dsimp only at hr
        cases hin : idFields.lookup "id" with
        | none =>
          rw [hin] at hr
          dsimp only at hr
          cases hr
          rw [JsonFields.lookup_setId fs _ _ hid] at hl
          cases hl
          exact ⟨_, rfl⟩
        | some innerId =>
          rw [hin] at hr
          cases htb : idFields.lookup "tb" with
          | none =>
            rw [htb] at hr
            dsimp only at hr
            cases hr
            rw [JsonFields.lookup_setId fs _ _ hid] at hl
            cases hl
            exact ⟨_, rfl⟩
          | some tbv =>
            rw [htb] at hr
            dsimp only at hr
            cases hr
            rw [JsonFields.lookup_setId fs _ _ hid] at hl
            cases hl
            exact ⟨_, rfl⟩
      | str s =>
        dsimp only at hr
        cases hr
        rw [JsonFields.lookup_setId fs _ _ hid] at hl
        cases hl
        exact ⟨_, rfl⟩
      | num n =>
        dsimp only at hr
        cases hr
        rw [JsonFields.lookup_setId fs _ _ hid] at hl
        cases hl
        exact ⟨_, rfl⟩
      | bool b =>
        dsimp only at hr
        cases hr
        rw [JsonFields.lookup_setId fs _ _ hid] at hl
        cases hl
        exact ⟨_, rfl⟩
      | null =>
        dsimp only at hr
        cases hr
        rw [JsonFields.lookup_setId fs _ _ hid] at hl
        cases hl
        exact ⟨_, rfl⟩
      | arr xs =>
        dsimp only at hr
        cases hr
        rw [JsonFields.lookup_setId fs _ _ hid] at hl
        cases hl
        exact ⟨_, rfl⟩
  | str s => simp [formatRecord] at hr
  | num n => simp [formatRecord] at hr
  | bool b => simp [formatRecord] at hr
  | null => simp [formatRecord] at hr
  | arr xs => simp [formatRecord] at hr

/-- `selectFirst` only ever returns formatted records. -/
theorem selectFirst_formatted {xs : List JsonValue} {r : JsonValue}
    (h : SurrealService.selectFirst xs = some r) : ∃ x, r = formatRecord x := by
  unfold SurrealService.selectFirst at h
  cases xs with
  | nil => cases h
  | cons x xs =>
    simp only [List.head?] at h
    by_cases hf : jsFalsy x = true
    · rw [if_pos hf] at h
      cases h
    · rw [if_neg hf] at h
      cases h
      exact ⟨x, rfl⟩

/-! ### Claim theorems -/

/-- C1: For every condition triple `{field, operator: 'LIKE', value}`,
`buildWhereClause` inspects the pattern's leading/trailing `%` markers and
renders exactly one of four predicate forms: a contains-predicate on the
inner substring when the pattern both starts and ends with `%`, an ends-with
predicate on the suffix when it only starts with `%`, a starts-with predicate
on the prefix when it only ends with `%`, and the exact-equality predicate
`field = <JSON-quoted value>` when the pattern has no leading or trailing
`%`. -/
theorem C1_like_four_predicate_forms (field : String) (value : JsonValue) :
    (buildWhereClause (.list [⟨field, some .like, value⟩]) =
      buildCondition ⟨field, some .like, value⟩)
    ∧ (jsStartsWith (jsToString value) "%" = true →
      jsEndsWith (jsToString value) "%" = true →
      buildCondition ⟨field, some .like, value⟩ =
        "string::contains(" ++ field ++ ", " ++
          jsonStringify (.str (((jsToString value).drop 1).dropRight 1)) ++ ")")
    ∧ (jsStartsWith (jsToString value) "%" = true →
      jsEndsWith (jsToString value) "%" = false →
      buildCondition ⟨field, some .like, value⟩ =
        "string::ends_with(" ++ field ++ ", " ++
          jsonStringify (.str ((jsToString value).drop 1)) ++ ")")
    ∧ (jsStartsWith (jsToString value) "%" = false →
      jsEndsWith (jsToString value) "%" = true →
      buildCondition ⟨field, some .like, value⟩ =
        "string::starts_with(" ++ field ++ ", " ++
          jsonStringify (.str ((jsToString value).dropRight 1)) ++ ")")
    ∧ (jsStartsWith (jsToString value) "%" = false →
      jsEndsWith (jsToString value) "%" = false →
      buildCondition ⟨field, some .like, value⟩ =
        field ++ " = " ++ jsonStringify value) := by
  refine ⟨?_, ?_, ?_, ?_, ?_⟩
  · rfl
  · intro h1 h2
    simp [buildCondition, h1, h2]
  · intro h1 h2
    simp [buildCondition, h1, h2]
  · intro h1 h2
    simp [buildCondition, h1, h2]
  · intro h1 h2
    simp [buildCondition, h1, h2]

/-- C1 witness: the four spec examples — `"%an%"` (contains), `"%@x.com"`
(ends with), `"john%"` (starts with), `"exact"` (exact equality). -/
theorem C1_like_four_predicate_forms_witness :
    buildCondition ⟨"name", some .like, .str "%an%"⟩ =
        "string::contains(name, \"an\")"
    ∧ buildCondition ⟨"email", some .like, .str "%@x.com"⟩ =
        "string::ends_with(email, \"@x.com\")"
    ∧ buildCondition ⟨"name", some .like, .str "john%"⟩ =
        "string::starts_with(name, \"john\")"
    ∧ buildCondition ⟨"name", some .like, .str "exact"⟩ = "name = \"exact\"" :=
  ⟨(C1_like_four_predicate_forms "name" (.str "%an%")).2.1 rfl rfl,
   (C1_like_four_predicate_forms "email" (.str "%@x.com")).2.2.1 rfl rfl,
   (C1_like_four_predicate_forms "name" (.str "john%")).2.2.2.1 rfl rfl,
   (C1_like_four_predicate_forms "name" (.str "exact")).2.2.2.2 rfl rfl⟩

/-- C7: The connection manager is a state machine over `dbInstance : Option
SurrealHandle`: once `init` has succeeded, a further `init` returns the
stored handle regardless of (and without consulting) the connect outcome; a
failed first `init` leaves the state uninitialized and re-throws; `get`
fails with NotInitialized exactly on the uninitialized state and returns the
handle otherwise; `close` always resets the state to uninitialized and is a
safe no-op when already closed. -/
theorem C7_connection_manager_state_machine (connect : Except String SurrealHandle)
    (h : SurrealHandle) (s : Option SurrealHandle) (e : String) :
    (initSurrealDB connect (some h) = (some h, .ok h))
    ∧ (initSurrealDB (.ok h) none = (some h, .ok h))
    ∧ (initSurrealDB (.error e) none = (none, .error e))
    ∧ (getSurrealDB none = .error "SurrealDB 未初始化，请先调用 initSurrealDB()")
    ∧ (getSurrealDB (some h) = .ok h)
    ∧ (closeSurrealDB s = none) := by
  refine ⟨rfl, rfl, rfl, rfl, rfl, ?_⟩
  cases s <;> rfl

/-- C9: `deleteMany` always resolves to `true`: each per-id `delete` swallows
its own failures into a boolean, so the concurrent batch cannot reject and
`deleteMany`'s `false` branch is unreachable; in particular an id whose
`delete` reports `false` (here the empty id) is invisible in the batch
result. -/
theorem C9_deleteMany_always_true (db : Db) (table : String) (ids : List String) :
    SurrealService.deleteMany db table ids = true
    ∧ SurrealService.delete db table "" = false
    ∧ SurrealService.deleteMany db table [""] = true :=
  ⟨rfl, rfl, rfl⟩

/-- C3: `findById` normalizes a bare key (no `':'`) to `table:key` before the
lookup, passes an id already containing `':'` through unchanged, and returns
absent (`null`) rather than raising for an empty id, for a store error
(malformed id), or for a missing record. -/
theorem C3_findById_normalizes_and_absorbs (db : Db) (table id : String) :
    (SurrealService.findById db table "" = none)
    ∧ (id ≠ "" → jsIncludes id ':' = false →
      SurrealService.findById db table id =
        SurrealService.selectFrom db (table ++ ":" ++ id))
    ∧ (id ≠ "" → jsIncludes id ':' = true →
      SurrealService.findById db table id = SurrealService.selectFrom db id)
    ∧ (∀ e, db.query ("SELECT * FROM " ++ normalizeRecordId table id) = .error e →
      SurrealService.findById db table id = none)
    ∧ (db.query ("SELECT * FROM " ++ normalizeRecordId table id) =
        .ok [.obj (.cons "result" (.arr .nil) .nil)] →
      SurrealService.findById db table id = none) := by
  refine ⟨rfl, ?_, ?_, ?_, ?_⟩
  · intro h hc
    simp [SurrealService.findById, h, normalizeRecordId, hc]
  · intro h hc
    simp [SurrealService.findById, h, normalizeRecordId, hc]
  · intro e he
    by_cases h : id = ""
    · simp [SurrealService.findById, h]
    · simp [SurrealService.findById, h, SurrealService.selectFrom, he]
  · intro hq
    by_cases h : id = ""
    · simp [SurrealService.findById, h]
    · simp [SurrealService.findById, h, SurrealService.selectFrom, hq,
        SurrealService.selectFirst, jsArrOrEmpty, JsonFields.lookup, JsonArray.toList]

/-- C3 witness: against `lookupDb` — empty id, bare key `alice`, prefixed key
`user:alice`, a store error on `bad`, and the missing record `gone` all
behave as stated. -/
theorem C3_findById_witness :
    SurrealService.findById lookupDb "user" "" = none
    ∧ SurrealService.findById lookupDb "user" "alice" =
        SurrealService.selectFrom lookupDb "user:alice"
    ∧ SurrealService.findById lookupDb "user" "user:alice" =
        SurrealService.selectFrom lookupDb "user:alice"
    ∧ SurrealService.findById lookupDb "user" "bad" = none
    ∧ SurrealService.findById lookupDb "user" "gone" = none :=
  ⟨(C3_findById_normalizes_and_absorbs lookupDb "user" "x").1,
   (C3_findById_normalizes_and_absorbs lookupDb "user" "alice").2.1 (by decide) rfl,
   (C3_findById_normalizes_and_absorbs lookupDb "user" "user:alice").2.2.1
     (by decide) rfl,
   (C3_findById_normalizes_and_absorbs lookupDb "user" "bad").2.2.2.1
     "connection failure" rfl,
   (C3_findById_normalizes_and_absorbs lookupDb "user" "gone").2.2.2.2 rfl⟩

/-- C4: `upsert(id, data)` performs `update(id, data)` when `findById(id)`
finds a record and otherwise performs a create from the payload alone: the
create branch is `add({...data})`, which does not mention the id argument —
so the created record's identifier is store-assigned, and two missing ids
yield identical upsert outcomes. -/
theorem C4_upsert_update_or_create (db : Db) (table id : String) (data : JsonFields) :
    (∀ r, SurrealService.findById db table id = some r →
      SurrealService.upsert db table id data = SurrealService.update db table id data)
    ∧ (SurrealService.findById db table id = none →
      SurrealService.upsert db table id data = SurrealService.add db table (.obj data))
    ∧ (∀ idB, SurrealService.findById db table id = none →
      SurrealService.findById db table idB = none →
      SurrealService.upsert db table id data = SurrealService.upsert db table idB data) := by
  refine ⟨?_, ?_, ?_⟩
  · intro r h
    simp [SurrealService.upsert, h]
  · intro h
    simp [SurrealService.upsert, h]
  · intro idB h1 h2
    simp [SurrealService.upsert, h1, h2]

/-- C4 witness: against `lookupDb` — upserting existing `alice` is the
update; upserting missing `gone` is the create, and coincides with upserting
the (equally missing) `gone2`. -/
theorem C4_upsert_witness :
    SurrealService.upsert lookupDb "user" "alice" (.cons "name" (.str "Ann") .nil) =
        SurrealService.update lookupDb "user" "alice" (.cons "name" (.str "Ann") .nil)
    ∧ SurrealService.upsert lookupDb "user" "gone" (.cons "name" (.str "Ann") .nil) =
        SurrealService.add lookupDb "user" (.obj (.cons "name" (.str "Ann") .nil))
    ∧ SurrealService.upsert lookupDb "user" "gone" (.cons "name" (.str "Ann") .nil) =
        SurrealService.upsert lookupDb "user" "gone2" (.cons "name" (.str "Ann") .nil) :=
  ⟨(C4_upsert_update_or_create lookupDb "user" "alice" _).1 (formatRecord recAlice) rfl,
   (C4_upsert_update_or_create lookupDb "user" "gone" _).2.1 rfl,
   (C4_upsert_update_or_create lookupDb "user" "gone" _).2.2 "gone2" rfl rfl⟩

/-- C5 counterexample: after `test_user:a` has been deleted, the record is
absent (`findById` returns `none`), yet a second `delete` returns `true`,
not `false` — SurrealDB answers `DELETE` on a missing record with an empty
success result, and the service maps any successful statement to `true`. -/
theorem C5_second_delete_counterexample :
    SurrealService.findById dbAfterDelete "test_user" "a" = none
    ∧ SurrealService.delete dbAfterDelete "test_user" "a" = true :=
  ⟨rfl, rfl⟩

/-- C5 (amended): `delete(id)` never raises — it returns `false` exactly on
an empty id or a thrown store error (both swallowed and logged), and `true`
whenever the `DELETE` statement succeeds; after a successful delete
`findById` returns absent, and a second `delete` on the now-missing record
again returns `true` (the store treats deleting a missing record as
success), still without raising. -/
theorem C5_delete_never_raises (db : Db) (table id : String) :
    (SurrealService.delete db table "" = false)
    ∧ (∀ e, db.query ("DELETE " ++ normalizeRecordId table id) = .error e →
      SurrealService.delete db table id = false)
    ∧ (∀ resp, id ≠ "" →
      db.query ("DELETE " ++ normalizeRecordId table id) = .ok resp →
      SurrealService.delete db table id = true)
    ∧ (SurrealService.delete dbWithRecord "test_user" "a" = true)
    ∧ (SurrealService.findById dbAfterDelete "test_user" "a" = none)
    ∧ (SurrealService.delete dbAfterDelete "test_user" "a" = true) := by
  refine ⟨rfl, ?_, ?_, rfl, rfl, rfl⟩
  · intro e he
    by_cases h : id = ""
    · simp [SurrealService.delete, h]
    · simp [SurrealService.delete, h, he]
  · intro resp h hq
    simp [SurrealService.delete, h, hq]

/-- C5 witness: a store error (`bad` against `lookupDb`) yields `false`;
a successful `DELETE` of the missing `test_user:a` yields `true`. -/
theorem C5_delete_never_raises_witness :
    SurrealService.delete lookupDb "user" "bad" = false
    ∧ SurrealService.delete dbAfterDelete "test_user" "a" = true :=
  ⟨(C5_delete_never_raises lookupDb "user" "bad").2.1 "connection failure" rfl,
   (C5_delete_never_raises dbAfterDelete "test_user" "a").2.2.1
     (resultResponse []) (by decide) rfl⟩

/-- C6: `findBy` returns the empty sequence both when no records match (an
empty `result` array) and when the store reports a recognized in-band error
(`status: 'ERR'`) for the query; in both cases the outcome is a normal `.ok`
return — the recognized store-side error is swallowed (logged only), never
propagated to the caller. -/
theorem C6_findBy_swallows_recognized_errors (db : Db) (table : String)
    (conds : Conditions) (resp : List JsonValue)
    (hq : db.query ("SELECT * FROM " ++ table ++ " WHERE " ++ buildWhereClause conds) =
      .ok resp) :
    (∀ fs, resp.head? = some (.obj fs) → fs.lookup "result" = some (.arr .nil) →
      SurrealService.findBy db table conds = .ok [])
    ∧ (∀ fs, resp.head? = some (.obj fs) → fs.lookup "result" = none →
      fs.lookup "status" = some (.str "ERR") →
      SurrealService.findBy db table conds = .ok []) := by
  constructor
  · intro fs hh hr
    simp [SurrealService.findBy, hq, hh, hr, jsArrOrEmpty, JsonArray.toList]
  · intro fs hh hr hs
    simp [SurrealService.findBy, hq, hh, hr, hs]

/-- C6 witness: the filter `{age: 25}` against a store with no matches, and
against a store answering with an in-band `status: 'ERR'` response — both
yield `.ok []`. -/
theorem C6_findBy_witness :
    SurrealService.findBy noMatchDb "user" (.fields (.cons "age" (.num 25) .nil)) = .ok []
    ∧ SurrealService.findBy inbandErrDb "user" (.fields (.cons "age" (.num 25) .nil)) =
        .ok [] :=
  ⟨(C6_findBy_swallows_recognized_errors noMatchDb "user"
      (.fields (.cons "age" (.num 25) .nil)) (resultResponse []) rfl).1
      (.cons "result" (.arr .nil) .nil) rfl rfl,
   (C6_findBy_swallows_recognized_errors inbandErrDb "user"
      (.fields (.cons "age" (.num 25) .nil))
      [.obj (.cons "status" (.str "ERR") (.cons "detail" (.str "parse error") .nil))]
      rfl).2
      (.cons "status" (.str "ERR") (.cons "detail" (.str "parse error") .nil))
      rfl rfl rfl⟩

/-- For a positive divisor, the integer model of
`Math.ceil(countResult / pageSize)` agrees with the mathematical ceiling of
the rational quotient. -/
theorem mathCeilDiv_eq_ceil (t p : Int) (hp : 0 < p) :
    mathCeilDiv t p = Int.ceil ((t : ℚ) / (p : ℚ)) := by
  unfold mathCeilDiv
  rw [Int.fdiv_eq_ediv _ (le_of_lt hp)]
  symm
  rw [Int.ceil_eq_iff]
  have hpq : (0 : ℚ) < (p : ℚ) := by exact_mod_cast hp
  have h1 := Int.ediv_add_emod (-t) p
  have h2 := Int.emod_nonneg (-t) (ne_of_gt hp)
  have h3 := Int.emod_lt_of_pos (-t) hp
  constructor
  · rw [sub_lt_iff_lt_add, div_add' _ _ _ (ne_of_gt hpq), lt_div_iff₀ hpq]
    have hi : -(-t / p) * p < t + 1 * p := by nlinarith [h1, h2, h3]
    exact_mod_cast hi
  · rw [div_le_iff₀ hpq]
    have hi : t ≤ -(-t / p) * p := by nlinarith [h1, h2, h3]
    exact_mod_cast hi

/-- C2: `paginate(page, pageSize, condition?, orderBy?)` issues the data
query with limit `pageSize` and offset `(page-1)*pageSize`, combines the
data fetch with the concurrent `count`, and returns a result echoing `page`
and `pageSize` unchanged (unvalidated), with `total` the count and
`totalPages = ceil(total / pageSize)`; in particular `totalPages = 0` when
`total = 0` and `pageSize` is positive. -/
theorem C2_paginate_contract (db : Db) (table : String) (page pageSize : Int)
    (conditions : Option Conditions) (orderBy : Option OrderBy)
    (dataResp : List JsonValue) (total : Int)
    (hq : db.query (SurrealService.paginateQuery table page pageSize conditions orderBy) =
      .ok dataResp)
    (hc : SurrealService.count db table conditions = .ok total) :
    (∃ base, SurrealService.paginateQuery table page pageSize conditions orderBy =
      base ++ " LIMIT " ++ toString pageSize ++ " START " ++ toString ((page - 1) * pageSize))
    ∧ ∃ res, SurrealService.paginate db table page pageSize conditions orderBy = .ok res
      ∧ res.page = page ∧ res.pageSize = pageSize ∧ res.total = total
      ∧ (0 < pageSize → res.totalPages = Int.ceil ((total : ℚ) / (pageSize : ℚ)))
      ∧ (total = 0 → res.totalPages = 0) := by
  constructor
  · cases conditions <;> cases orderBy <;> exact ⟨_, rfl⟩
  · refine ⟨⟨SurrealService.paginateData dataResp, total, page, pageSize,
        mathCeilDiv total pageSize⟩,
      ?_, rfl, rfl, rfl, mathCeilDiv_eq_ceil total pageSize, ?_⟩
    · simp only [SurrealService.paginate, hq, hc]
    · intro h0
      subst h0
      simp [mathCeilDiv]

/-- C2 witness: page 1 of size 2 against a store of 5 records — the data
query is `... LIMIT 2 START 0`, the result echoes `page = 1`,
`pageSize = 2`, `total = 5` and `totalPages = ⌈5/2⌉`. -/
theorem C2_paginate_contract_witness :
    (∃ base, SurrealService.paginateQuery "test_user" 1 2 none none =
      base ++ " LIMIT " ++ toString (2 : Int) ++ " START " ++ toString (((1 : Int) - 1) * 2))
    ∧ ∃ res, SurrealService.paginate pagingDb "test_user" 1 2 none none = .ok res
      ∧ res.page = 1 ∧ res.pageSize = 2 ∧ res.total = 5
      ∧ ((0 : Int) < 2 → res.totalPages = Int.ceil ((5 : ℚ) / (2 : ℚ)))
      ∧ ((5 : Int) = 0 → res.totalPages = 0) :=
  C2_paginate_contract pagingDb "test_user" 1 2 none none
    (resultResponse [recAlice, recAnn]) 5 rfl rfl

/-- Soundness of the `toJSON` filter: every serialized field comes from a
data (non-function) own property whose key is `id` or not
underscore-prefixed. -/
theorem toJSONFields_lookup_mem :
    ∀ (fs : List (String × JsField)) (k : String) (v : JsonValue),
      (BaseModel.toJSONFields fs).lookup k = some v →
      (k, JsField.val v) ∈ fs ∧ (k = "id" ∨ jsStartsWith k "_" = false)
  | [], k, v, h => by simp [BaseModel.toJSONFields, JsonFields.lookup] at h
  | (k1, f) :: rest, k, v, h => by
    cases f with
    | fn =>
      simp only [BaseModel.toJSONFields] at h
      obtain ⟨hm, hk⟩ := toJSONFields_lookup_mem rest k v h
      exact ⟨List.mem_cons_of_mem _ hm, hk⟩
    | val w =>
      simp only [BaseModel.toJSONFields] at h
      by_cases hc : k1 = "id" ∨ jsStartsWith k1 "_" = false
      · rw [if_pos hc] at h
        simp only [JsonFields.lookup] at h
        by_cases hk1 : k1 = k
        · rw [if_pos hk1] at h
          cases h
          subst hk1
          exact ⟨List.mem_cons_self _ _, hc⟩
        · rw [if_neg hk1] at h
          obtain ⟨hm, hk⟩ := toJSONFields_lookup_mem rest k v h
          exact ⟨List.mem_cons_of_mem _ hm, hk⟩
      · rw [if_neg hc] at h
        obtain ⟨hm, hk⟩ := toJSONFields_lookup_mem rest k v h
        exact ⟨List.mem_cons_of_mem _ hm, hk⟩

/-- Completeness of the `toJSON` filter: every data own property whose key is
`id` or not underscore-prefixed is serialized (up to shadowing by an earlier
property of the same key). -/
theorem toJSONFields_mem_lookup :
    ∀ (fs : List (String × JsField)) (k : String) (v : JsonValue),
      (k, JsField.val v) ∈ fs → (k = "id" ∨ jsStartsWith k "_" = false) →
      ∃ w, (BaseModel.toJSONFields fs).lookup k = some w
  | [], k, v, hm, _ => by cases hm
  | (k1, f) :: rest, k, v, hm, hc => by
    rcases List.mem_cons.mp hm with heq | htail
    · cases heq
      simp only [BaseModel.toJSONFields]
      rw [if_pos hc]
      exact ⟨v, by simp [JsonFields.lookup]⟩
    · cases f with
      | fn =>
        simp only [BaseModel.toJSONFields]
        exact toJSONFields_mem_lookup rest k v htail hc
      | val w =>
        simp only [BaseModel.toJSONFields]
        by_cases hc1 : k1 = "id" ∨ jsStartsWith k1 "_" = false
        · rw [if_pos hc1]
          by_cases hk1 : k1 = k
          · exact ⟨w, by simp [JsonFields.lookup, hk1]⟩
          · obtain ⟨u, hu⟩ := toJSONFields_mem_lookup rest k v htail hc
            exact ⟨u, by simp [JsonFields.lookup, hk1, hu]⟩
        · rw [if_neg hc1]
          exact toJSONFields_mem_lookup rest k v htail hc

/-- C8: `BaseModel.update()` fails with InvalidState before any service call
when the instance's identifier is unset (the outcome does not depend on the
service); when the identifier is set it serializes the instance's public
fields — excluding underscore-prefixed fields and function-valued members —
via `toJSON` and invokes the service update with that id, merging the
service's record back on success and propagating its failure otherwise. -/
theorem C8_update_requires_id (svc : String → JsonFields → Except String JsonValue)
    (m : ModelInstance) (idv result : JsonValue) (e : String) :
    (BaseModel.getId m = none →
      BaseModel.update svc m = .error "无法更新没有 ID 的记录")
    ∧ (BaseModel.getId m = some idv →
      svc (jsToString idv) (BaseModel.toJSON m) = .ok result →
      BaseModel.update svc m = .ok (BaseModel.objectAssign m result))
    ∧ (BaseModel.getId m = some idv →
      svc (jsToString idv) (BaseModel.toJSON m) = .error e →
      BaseModel.update svc m = .error e)
    ∧ (∀ k v, (BaseModel.toJSON m).lookup k = some v →
      (k, JsField.val v) ∈ m.fields ∧ (k = "id" ∨ jsStartsWith k "_" = false))
    ∧ (∀ k v, (k, JsField.val v) ∈ m.fields →
      (k = "id" ∨ jsStartsWith k "_" = false) →
      ∃ w, (BaseModel.toJSON m).lookup k = some w) := by
  refine ⟨?_, ?_, ?_, ?_, ?_⟩
  · intro h
    simp [BaseModel.update, h]
  · intro h hs
    simp [BaseModel.update, h, hs]
  · intro h hs
    simp [BaseModel.update, h, hs]
  · intro k v h
    exact toJSONFields_lookup_mem m.fields k v h
  · intro k v hm hc
    exact toJSONFields_mem_lookup m.fields k v hm hc

/-- C8 witness: `instNoId` (no identifier) fails with InvalidState for the
stub service; `instBob` serializes and invokes the service with
`"user:bob"`; the public field `name` is kept by `toJSON` while `_service`
and the function-valued `refresh` are dropped. -/
theorem C8_update_requires_id_witness :
    BaseModel.update svcStub instNoId = .error "无法更新没有 ID 的记录"
    ∧ BaseModel.update svcStub instBob =
        .ok (BaseModel.objectAssign instBob
          (.obj (.cons "id" (.str "user:bob") (.cons "name" (.str "Bob") .nil))))
    ∧ (("name", JsField.val (.str "Bob")) ∈ instBob.fields
        ∧ ("name" = "id" ∨ jsStartsWith "name" "_" = false))
    ∧ (∃ w, (BaseModel.toJSON instBob).lookup "name" = some w)
    ∧ (BaseModel.toJSON instBob).lookup "_service" = none
    ∧ (BaseModel.toJSON instBob).lookup "refresh" = none :=
  ⟨(C8_update_requires_id svcStub instNoId (.str "x") .null "e").1 rfl,
   (C8_update_requires_id svcStub instBob (.str "user:bob")
      (.obj (.cons "id" (.str "user:bob") (.cons "name" (.str "Bob") .nil))) "e").2.1
      rfl rfl,
   (C8_update_requires_id svcStub instBob (.str "x") .null "e").2.2.2.1
      "name" (.str "Bob") rfl,
   (C8_update_requires_id svcStub instBob (.str "x") .null "e").2.2.2.2
      "name" (.str "Bob") (List.mem_cons_of_mem _ (List.mem_cons_self _ _))
      (Or.inr rfl),
   rfl, rfl⟩

/-- C10: every record returned by the db-backed service's `add`, `findById`,
`findBy`, `update` and `updateBy` has passed through `formatRecord`, and
therefore carries a string-valued `id`: a composite record identifier
`{tb, id}` becomes the string `tb:id`, and any other id value is coerced to
a string. -/
theorem C10_returned_record_ids_are_strings (db : Db) (table id : String)
    (payload : JsonValue) (data : JsonFields) (conds : Conditions) :
    (∀ r, recordIdIsString (formatRecord r))
    ∧ (∀ fields idFields innerId tbv,
      fields.lookup "id" = some (.obj idFields) →
      idFields.lookup "id" = some innerId →
      idFields.lookup "tb" = some tbv →
      formatRecord (.obj fields) =
        .obj (setId fields (.str (jsToString tbv ++ ":" ++ jsToString innerId))))
    ∧ (∀ fields n, fields.lookup "id" = some (.num n) →
      formatRecord (.obj fields) = .obj (setId fields (.str (toString n))))
    ∧ (∀ r, SurrealService.add db table payload = .ok r → recordIdIsString r)
    ∧ (∀ r, SurrealService.findById db table id = some r → recordIdIsString r)
    ∧ (∀ rs r, SurrealService.findBy db table conds = .ok rs → r ∈ rs →
      recordIdIsString r)
    ∧ (∀ r, SurrealService.update db table id data = .ok r → recordIdIsString r)
    ∧ (∀ rs r, SurrealService.updateBy db table conds data = .ok rs → r ∈ rs →
      recordIdIsString r) := by
  refine ⟨recordIdIsString_formatRecord, ?_, ?_, ?_, ?_, ?_, ?_, ?_⟩
  · intro fields idFields innerId tbv h1 h2 h3
    simp only [formatRecord, h1, h2, h3]
  · intro fields n h1
    simp only [formatRecord, h1, jsToString]
  · intro r h
    unfold SurrealService.add at h
    cases hc : db.create table payload with
    | error e => rw [hc] at h; cases h
    | ok result =>
      rw [hc] at h
      dsimp only at h
      cases hh : (jsToArray result).head? with
      | none => rw [hh] at h; cases h
      | some x =>
        rw [hh] at h
        dsimp only at h
        by_cases hf : jsFalsy x = true
        · rw [if_pos hf] at h; cases h
        · rw [if_neg hf] at h
          cases h
          exact recordIdIsString_formatRecord x
  · intro r h
    unfold SurrealService.findById at h
    by_cases hid : id = ""
    · rw [if_pos hid] at h; cases h
    · rw [if_neg hid] at h
      unfold SurrealService.selectFrom at h
      cases hq : db.query ("SELECT * FROM " ++ normalizeRecordId table id) with
      | error e => rw [hq] at h; cases h
      | ok resp =>
        rw [hq] at h
        dsimp only at h
        split at h
        · split at h
          · obtain ⟨x, hx⟩ := selectFirst_formatted h
            subst hx
            exact recordIdIsString_formatRecord x
          · cases h
        · obtain ⟨x, hx⟩ := selectFirst_formatted h
          subst hx
          exact recordIdIsString_formatRecord x
        · cases h
  · intro rs r h hmem
    unfold SurrealService.findBy at h
    cases hq : db.query ("SELECT * FROM " ++ table ++ " WHERE " ++
        buildWhereClause conds) with
    | error e => rw [hq] at h; cases h
    | ok resp =>
      rw [hq] at h
      dsimp only at h
      split at h
      · split at h
        · cases h
          obtain ⟨x, _, hx⟩ := List.mem_map.mp hmem
          exact hx ▸ recordIdIsString_formatRecord x
        · split at h
          · cases h
            cases hmem
          · cases h
            obtain ⟨x, _, hx⟩ := List.mem_map.mp hmem
            exact hx ▸ recordIdIsString_formatRecord x
      · cases h
        obtain ⟨x, _, hx⟩ := List.mem_map.mp hmem
        exact hx ▸ recordIdIsString_formatRecord x
      · cases h
        obtain ⟨x, _, hx⟩ := List.mem_map.mp hmem
        exact hx ▸ recordIdIsString_formatRecord x
  · intro r h
    simp only [SurrealService.update] at h
    by_cases hid : id = ""
    · rw [if_pos hid] at h; cases h
    · rw [if_neg hid] at h
      cases hq : db.query ("UPDATE " ++ normalizeRecordId table id ++ " SET " ++
          SurrealService.updateData data ++ " RETURN AFTER") with
      | error e => rw [hq] at h; cases h
      | ok resp =>
        rw [hq] at h
        dsimp only at h
        split at h
        · split at h
          · split at h
            · cases h
            · cases h
              exact recordIdIsString_formatRecord _
          · cases h
        · split at h
          · cases h
          · cases h
            exact recordIdIsString_formatRecord _
        · cases h
  · intro rs r h hmem
    unfold SurrealService.updateBy at h
    cases hq : db.query ("UPDATE " ++ table ++ " SET " ++
        SurrealService.updateData data ++ " WHERE " ++
        buildWhereClause conds ++ " RETURN AFTER") with
    | error e => rw [hq] at h; cases h
    | ok resp =>
      rw [hq] at h
      dsimp only at h
      split at h
      · split at h
        · cases h
          obtain ⟨x, _, hx⟩ := List.mem_map.mp hmem
          exact hx ▸ recordIdIsString_formatRecord x
        · cases h
          cases hmem
      · cases h
        obtain ⟨x, _, hx⟩ := List.mem_map.mp hmem
        exact hx ▸ recordIdIsString_formatRecord x
      · cases h
        cases hmem

/-- C10 witness: against `formatDb` — the composite id of the freshly created
`recCarol` becomes `"user:carol"`, a numeric id becomes its decimal string,
and each of `add`, `findById`, `findBy`, `update` and `updateBy` returns
only records with string-valued ids. -/
theorem C10_returned_record_ids_witness :
    formatRecord recCarol =
      .obj (.cons "id" (.str "user:carol") (.cons "name" (.str "Carol") .nil))
    ∧ formatRecord (.obj (.cons "id" (.num 7) .nil)) =
      .obj (.cons "id" (.str "7") .nil)
    ∧ (∃ r, SurrealService.add formatDb "user" (.obj .nil) = .ok r
        ∧ recordIdIsString r)
    ∧ (∃ r, SurrealService.findById formatDb "user" "alice" = some r
        ∧ recordIdIsString r)
    ∧ (∃ rs, SurrealService.findBy formatDb "user"
          (.fields (.cons "age" (.num 25) .nil)) = .ok rs
        ∧ ∀ r ∈ rs, recordIdIsString r)
    ∧ (∃ r, SurrealService.update formatDb "user" "alice"
          (.cons "name" (.str "Ann") .nil) = .ok r
        ∧ recordIdIsString r)
    ∧ (∃ rs, SurrealService.updateBy formatDb "user"
          (.fields (.cons "age" (.num 25) .nil))
          (.cons "name" (.str "Ann") .nil) = .ok rs
        ∧ ∀ r ∈ rs, recordIdIsString r) :=
  ⟨(C10_returned_record_ids_are_strings formatDb "user" "alice" (.obj .nil)
      (.cons "name" (.str "Ann") .nil) (.fields (.cons "age" (.num 25) .nil))).2.1
      (.cons "id" (.obj (.cons "tb" (.str "user") (.cons "id" (.str "carol") .nil)))
        (.cons "name" (.str "Carol") .nil))
      (.cons "tb" (.str "user") (.cons "id" (.str "carol") .nil))
      (.str "carol") (.str "user") rfl rfl rfl,
   (C10_returned_record_ids_are_strings formatDb "user" "alice" (.obj .nil)
      (.cons "name" (.str "Ann") .nil) (.fields (.cons "age" (.num 25) .nil))).2.2.1
      (.cons "id" (.num 7) .nil) 7 rfl,
   ⟨formatRecord recCarol, rfl,
    (C10_returned_record_ids_are_strings formatDb "user" "alice" (.obj .nil)
      (.cons "name" (.str "Ann") .nil) (.fields (.cons "age" (.num 25) .nil))).2.2.2.1
      (formatRecord recCarol) rfl⟩,
   ⟨formatRecord recAlice, rfl,
    (C10_returned_record_ids_are_strings formatDb "user" "alice" (.obj .nil)
      (.cons "name" (.str "Ann") .nil)
      (.fields (.cons "age" (.num 25) .nil))).2.2.2.2.1
      (formatRecord recAlice) rfl⟩,
   ⟨[formatRecord recAlice], rfl, fun r hr =>
    (C10_returned_record_ids_are_strings formatDb "user" "alice" (.obj .nil)
      (.cons "name" (.str "Ann") .nil)
      (.fields (.cons "age" (.num 25) .nil))).2.2.2.2.2.1
      [formatRecord recAlice] r rfl hr⟩,
   ⟨formatRecord recAnn, rfl,
    (C10_returned_record_ids_are_strings formatDb "user" "alice" (.obj .nil)
      (.cons "name" (.str "Ann") .nil)
      (.fields (.cons "age" (.num 25) .nil))).2.2.2.2.2.2.1
      (formatRecord recAnn) rfl⟩,
   ⟨[formatRecord recAnn], rfl, fun r hr =>
    (C10_returned_record_ids_are_strings formatDb "user" "alice" (.obj .nil)
      (.cons "name" (.str "Ann") .nil)
      (.fields (.cons "age" (.num 25) .nil))).2.2.2.2.2.2.2
      [formatRecord recAnn] r rfl hr⟩⟩
